import Mathlib

/-!
# mcp-recon: orchestration layer over the probe engine and the ASN resolver

A shallow embedding of `mcp-recon.go` (the file `tellix.go` carries the same
handlers, `parseTargets` and `runHttpx`, without the prompt handlers).

Conventions of the embedding.

* Go strings that were decoded from JSON (request arguments) or that are
  plain text for this program (map keys, host names, header names and values)
  are Lean `String`s: such strings are valid UTF-8, where the byte-wise
  `strings.Index` / `strings.Split` and the rune-wise `strings.TrimSpace`
  agree with their code-point-wise reading.
* The raw wire response `r.Raw` is a byte string (`List UInt8`): the source
  slices it by bytes.
* The external collaborators (`net`, `asnmap`, `runner`, `os`) are the fields
  of `Env`; every effectful call is recorded in the `log` of the `World`.
-/

namespace McpRecon

/-! ## Go `strings` primitives -/

/-- Go `strings.Index(s, sep)`: offset of the first occurrence of `sep` in `s`
(`none` for Go's `-1`). -/
def Index {α : Type} [DecidableEq α] (s sep : List α) : Option Nat :=
  match s with
  | [] => if sep.isPrefixOf ([] : List α) then some 0 else none
  | c :: t =>
    if sep.isPrefixOf (c :: t) then some 0
    else (Index t sep).map (fun m => m + 1)

/-- Go `strings.Count(s, sep)` for a non-empty `sep`: the number of
non-overlapping occurrences, found by repeated `Index`. The first argument
bounds the number of loop iterations. -/
def countLoop {α : Type} [DecidableEq α] (sep : List α) : Nat → List α → Nat
  | 0, _ => 0
  | fuel + 1, s =>
    match Index s sep with
    | none => 0
    | some i => countLoop sep fuel (s.drop (i + sep.length)) + 1

/-- Go `strings.Count(s, sep)`; for the empty separator Go answers one more
than the number of code points. -/
def Count {α : Type} [DecidableEq α] (s sep : List α) : Nat :=
  if sep = [] then s.length + 1 else countLoop sep s.length s

/-- The loop of Go `genSplit` (with `sepSave = 0`, non-empty `sep`): `k` is the
number of cuts still allowed (`n - 1 - i`); the loop stops at the first failed
`Index`, and what is left of `s` becomes the last piece. -/
def splitLoop {α : Type} [DecidableEq α] (sep : List α) : Nat → List α → List (List α)
  | 0, s => [s]
  | k + 1, s =>
    match Index s sep with
    | none => [s]
    | some m => s.take m :: splitLoop sep k (s.drop (m + sep.length))

/-- Go `strings.SplitN(s, sep, n)` for `n > 0` and a non-empty `sep`
(`genSplit(s, sep, 0, n)`; `n` is first clamped to `len(s) + 1`). -/
def SplitN {α : Type} [DecidableEq α] (s sep : List α) (n : Nat) : List (List α) :=
  splitLoop sep (min n (s.length + 1) - 1) s

/-- Go `strings.Split(s, sep)` for a non-empty `sep`
(`genSplit(s, sep, 0, -1)`, where `n` becomes `Count(s, sep) + 1`). -/
def Split {α : Type} [DecidableEq α] (s sep : List α) : List (List α) :=
  SplitN s sep (Count s sep + 1)

/-- Go `strings.Join(elems, sep)`. -/
def Join {α : Type} : List (List α) → List α → List α
  | [], _ => []
  | [a], _ => a
  | a :: b :: rest, sep => a ++ sep ++ Join (b :: rest) sep

/-- Go `unicode.IsSpace`: the Latin-1 cases and the `White_Space` table. -/
def isSpace (c : Char) : Bool :=
  let n := c.toNat
  (0x09 ≤ n && n ≤ 0x0d) || n == 0x20 || n == 0x85 || n == 0xa0 || n == 0x1680
    || (0x2000 ≤ n && n ≤ 0x200a) || n == 0x2028 || n == 0x2029 || n == 0x202f
    || n == 0x205f || n == 0x3000

/-- Go `strings.TrimSpace` on the code points of a string: all leading and all
trailing white space removed. -/
def trimSpaceChars (s : List Char) : List Char :=
  (s.dropWhile isSpace).rdropWhile isSpace

/-- Go `strings.TrimSpace`. -/
def TrimSpace (s : String) : String :=
  String.mk (trimSpaceChars s.data)

/-! ## Target parser -/

/-- `parseTargets` of the source: split on `"\n"`, trim each piece, keep the
pieces that are not empty after trimming. -/
def parseTargets (input : String) : List String :=
  ((Split input.data ['\n']).map (fun t => TrimSpace (String.mk t))).filter
    (fun trimmed => trimmed != "")

/-- The spec's "split on line breaks", written directly: a new piece starts
after every line-feed character. -/
def specLines : List Char → List (List Char)
  | [] => [[]]
  | c :: t =>
    if c = '\n' then [] :: specLines t
    else
      match specLines t with
      | [] => [[c]]
      | l :: ls => (c :: l) :: ls

/-- The spec's target parser (section 4.1): split on line breaks, trim
surrounding white space from each line, drop the lines that are empty after
trimming. -/
def specParse (raw : String) : List String :=
  ((specLines raw.data).map (fun l => TrimSpace (String.mk l))).filter
    (fun l => l != "")

/-! ## Data model -/

/-- A decoded JSON value: what Go's `json.Unmarshal` stores in an
`interface{}`. A number keeps its literal text. -/
inductive JVal where
  | null
  | bool (b : Bool)
  | num (literal : String)
  | str (s : String)
  | arr (items : List JVal)
  | obj (members : List (String × JVal))

/-- A byte string (the raw wire response). -/
abbrev Bytes := List UInt8

/-- A Go map with string keys, as an association list; the keys of a
well-formed map are pairwise distinct. -/
abbrev GoMap (V : Type) := List (String × V)

/-- Go `m[k]` read: `none` when the key is absent. -/
def mapGet {V : Type} (m : GoMap V) (k : String) : Option V :=
  match m with
  | [] => none
  | (k', v) :: rest => if k' = k then some v else mapGet rest k

/-- Go `m[k] = v`: replaces the entry of `k`, or adds one. -/
def mapSet {V : Type} (m : GoMap V) (k : String) (v : V) : GoMap V :=
  match m with
  | [] => [(k, v)]
  | (k', v') :: rest => if k' = k then (k, v) :: rest else (k', v') :: mapSet rest k v

/-- Well-formedness of a Go map: no key occurs twice. -/
def mapWF {V : Type} (m : GoMap V) : Prop := (m.map Prod.fst).Nodup

/-- The raw answer of `client.GetData` (`[]*asnmap.Response`); this program
only hands it to `asnmap.MapToResults`. -/
structure AsnResponse where
  body : String
  deriving DecidableEq, Repr

/-- One mapped ASN ownership record (`*asnmap.Result`); its content is not
inspected by this program. -/
structure AsnRecord where
  body : String
  deriving DecidableEq, Repr

/-- Response metadata of a probe result (`*httpx.Response`): only `Headers`
(`map[string][]string`, possibly nil) is read. -/
structure Response where
  Headers : Option (GoMap (List String))

/-- A raw probe result (`runner.Result`), reduced to the fields the callback
reads. `decoded` is the open mapping that `json.Marshal(r)` followed by
`json.Unmarshal` produces (the engine's own JSON rendering of the record). -/
structure Result where
  Err : Option String
  ASN : Option JVal
  A : List String
  Response : Option Response
  Raw : Bytes
  decoded : GoMap JVal

/-- A value stored in a shaped record (`map[string]interface{}`): a decoded
JSON value, a mapped ASN record, a flattened header map, or a Go string of raw
bytes. -/
inductive Val where
  | json (v : JVal)
  | asn (a : AsnRecord)
  | headers (h : GoMap String)
  | bytes (b : Bytes)

/-- The fields of `runner.Options` that `runHttpx` mentions; every other field
of the library type keeps its zero value in both modes. -/
structure Options where
  Methods : String
  InputTargetHost : List String
  Silent : Bool
  Threads : Nat
  Retries : Nat
  JSONOutput : Bool
  ResponseInStdout : Bool
  NoColor : Bool
  Asn : Bool
  Probe : Bool
  Favicon : Bool
  Jarm : Bool
  TLSGrab : Bool
  TechDetect : Bool
  CSPProbe : Bool
  HTTP2Probe : Bool
  FollowRedirects : Bool
  deriving DecidableEq, Repr

/-- What a process-wide standard stream variable (`os.Stdout`, `os.Stdin`) is
bound to: a stream that existed before the call, a handle on the discard
device, or a nil file (a failed `os.OpenFile` whose error was ignored). -/
inductive Stream where
  | orig (id : Nat)
  | devNull
  | nilFile
  deriving DecidableEq, Repr

/-- An effectful call on a collaborator. -/
inductive Event where
  | asnNewClient
  | asnResolveDomain (domain : String)
  | asnGetData (query : String)
  | validateOptions
  | runnerNew (opts : Options)
  | runEnumeration (stdout stdin : Stream)
  | runnerClose
  deriving DecidableEq, Repr

/-- The process state `runHttpx` touches: the two standard streams, and the
log of collaborator calls made so far. -/
structure World where
  stdout : Stream
  stdin : Stream
  log : List Event
  deriving DecidableEq, Repr

/-- Appends one collaborator call to the log. -/
def World.record (w : World) (e : Event) : World :=
  { w with log := w.log ++ [e] }

/-- One run of the probe engine: the results it hands to the callback, in
emission order, and whether `RunEnumeration` then panics instead of
returning. -/
structure EngineRun where
  emitted : List Result
  panics : Bool

/-- The external collaborators, as seen during one invocation. An error is
its message.
* `parseIP s` is `net.ParseIP(s)`, giving `ip.String()` for a valid literal;
* `newClient`, `resolveDomain`, `getData`, `mapToResults` are `asnmap`'s
  `NewClient`, `ResolveDomain`, `client.GetData`, `MapToResults`;
* `validateOptions` is `opts.ValidateOptions()` (a pointer method: it may
  adjust the options), `runnerNew` is `runner.New`, `runEnumeration` is
  `r.RunEnumeration()`;
* `openDevNullOut`, `openDevNullIn` tell whether the two
  `os.OpenFile(os.DevNull, ...)` calls succeed. -/
structure Env where
  parseIP : String → Option String
  newClient : Except String Unit
  resolveDomain : String → Except String (List String)
  getData : String → Except String AsnResponse
  mapToResults : AsnResponse → Except String (List AsnRecord)
  validateOptions : Options → Except String Options
  runnerNew : Options → Except String Unit
  runEnumeration : Options → EngineRun
  openDevNullOut : Bool
  openDevNullIn : Bool

/-- The value serialised into the text of a tool result: a string literal of
the source, or the `json.MarshalIndent` rendering of a scan envelope or of a
sequence of ASN records. -/
inductive Payload where
  | literal (text : String)
  | envelope (mode : String) (results : List (GoMap Val))
  | asnRecords (records : List AsnRecord)

/-- The `*mcp.CallToolResult` built by `mcp.NewToolResultText`: one text
content, not flagged as an error. -/
structure CallToolResult where
  isError : Bool
  text : Payload

/-- Go `mcp.NewToolResultText`. -/
def NewToolResultText (p : Payload) : CallToolResult :=
  { isError := false, text := p }

/-- How a handler call ends: it returns `(result, error)`, or a panic
propagates out of it. -/
inductive Outcome where
  | ret (r : Except String CallToolResult)
  | panicked

/-- A tool call request: `req.Params.Arguments`. -/
structure CallToolRequest where
  Arguments : GoMap JVal

/-- Go type assertion `v.(string)` on a map read. -/
def asString : Option JVal → Option String
  | some (JVal.str s) => some s
  | _ => none

/-- Go type assertion `v.(bool)` on a map read. -/
def asBool : Option JVal → Option Bool
  | some (JVal.bool b) => some b
  | _ => none

/-! ## Probe configuration -/

/-- The options literal at the head of `runHttpx`. -/
def baseOptions (targets : List String) : Options :=
  { Methods := "GET", InputTargetHost := targets, Silent := true, Threads := 10,
    Retries := 3, JSONOutput := true, ResponseInStdout := false, NoColor := true,
    Asn := false, Probe := false, Favicon := false, Jarm := false, TLSGrab := false,
    TechDetect := false, CSPProbe := false, HTTP2Probe := false,
    FollowRedirects := false }

/-- The options literal and the `switch mode` of `runHttpx`. -/
def selectOptions (targets : List String) (mode : String) : Except String Options :=
  let opts := baseOptions targets
  if mode = "lite" then .ok opts
  else if mode = "full" then
    .ok { opts with
      Asn := true, Probe := true, Favicon := true, Jarm := true, TLSGrab := true,
      TechDetect := true, CSPProbe := true, HTTP2Probe := true,
      FollowRedirects := true }
  else .error "invalid mode"

/-! ## Result shaping (the `OnResult` callback) -/

/-- The separator `"\r\n\r\n"`. -/
def crlf2 : Bytes := [13, 10, 13, 10]

/-- The "ASN fallback" block of the callback. -/
def asnFallback (env : Env) (r : Result) (parsed : GoMap Val) (w : World) :
    GoMap Val × World :=
  match r.ASN, r.A with
  | none, a0 :: _ =>
    let w := w.record Event.asnNewClient
    match env.newClient with
    | .error _ => (parsed, w)
    | .ok _ =>
      match env.parseIP a0 with
      | none => (parsed, w)
      | some ip =>
        let w := w.record (Event.asnGetData ip)
        match env.getData ip with
        | .error _ => (parsed, w)
        | .ok resp =>
          match env.mapToResults resp with
          | .ok (first :: _) => (mapSet parsed "asn" (Val.asn first), w)
          | _ => (parsed, w)
  | _, _ => (parsed, w)

/-- Go `strings.Join` on strings. -/
def joinStrings (v : List String) (sep : String) : String :=
  String.mk (Join (v.map String.data) sep.data)

/-- The "Headers" loop of the callback: a fresh map receiving, for every entry
of the header map, the values joined with `", "`. -/
def flattenHeaders (hs : GoMap (List String)) : GoMap String :=
  hs.foldl (fun headers kv => mapSet headers kv.1 (joinStrings kv.2 ", ")) []

/-- The "Headers" block of the callback. -/
def setHeaders (r : Result) (parsed : GoMap Val) : GoMap Val :=
  match r.Response with
  | none => parsed
  | some resp =>
    match resp.Headers with
    | none => parsed
    | some hs => mapSet parsed "headers" (Val.headers (flattenHeaders hs))

/-- The "Body preview" block of the callback. -/
def setBodyPreview (r : Result) (parsed : GoMap Val) : GoMap Val :=
  if r.Raw ≠ [] then
    match SplitN r.Raw crlf2 2 with
    | [_, body] =>
      let body := if body.length > 160 then body.take 160 else body
      mapSet parsed "body_preview" (Val.bytes body)
    | _ => parsed
  else parsed

/-- The body of the callback for a result without error marker, up to the
append: decode the record, ASN fallback, and in full mode headers and body
preview. -/
def shapeResult (env : Env) (mode : String) (r : Result) (w : World) :
    GoMap Val × World :=
  let parsed : GoMap Val := r.decoded.map (fun kv => (kv.1, Val.json kv.2))
  let (parsed, w) := asnFallback env r parsed w
  let parsed :=
    if mode = "full" then setBodyPreview r (setHeaders r parsed) else parsed
  (parsed, w)

/-- The `OnResult` callback: a result with an error marker is skipped, any
other is shaped and appended to `results`. -/
def onResult (env : Env) (mode : String) (st : List (GoMap Val) × World) (r : Result) :
    List (GoMap Val) × World :=
  match r.Err with
  | some _ => st
  | none =>
    let (parsed, w) := shapeResult env mode r st.2
    (st.1 ++ [parsed], w)

/-! ## Orchestrator -/

/-- The handle `os.OpenFile(os.DevNull, ...)` yields, its error ignored. -/
def openDevNull (succeeds : Bool) : Stream :=
  if succeeds then Stream.devNull else Stream.nilFile

/-- `runHttpx` of the source. The deferred calls (restore `os.Stdin`, restore
`os.Stdout`, `r.Close()`) run in reverse order of registration, also when
`RunEnumeration` panics. -/
def runHttpx (env : Env) (targets : List String) (mode : String) (w : World) :
    Outcome × World :=
  match selectOptions targets mode with
  | .error e => (Outcome.ret (.error e), w)
  | .ok opts =>
    let w := w.record Event.validateOptions
    match env.validateOptions opts with
    | .error e => (Outcome.ret (.error e), w)
    | .ok opts =>
      let w := w.record (Event.runnerNew opts)
      match env.runnerNew opts with
      | .error e => (Outcome.ret (.error e), w)
      | .ok _ =>
        let origOut := w.stdout
        let w := { w with stdout := openDevNull env.openDevNullOut }
        let origIn := w.stdin
        let w := { w with stdin := openDevNull env.openDevNullIn }
        let w := w.record (Event.runEnumeration w.stdout w.stdin)
        let run := env.runEnumeration opts
        let (results, w) := run.emitted.foldl (onResult env mode) ([], w)
        let w := { w with stdin := origIn }
        let w := { w with stdout := origOut }
        let w := w.record Event.runnerClose
        if run.panics then (Outcome.panicked, w)
        else (Outcome.ret (.ok (NewToolResultText (Payload.envelope mode results))), w)

/-! ## Tool handlers -/

/-- The refusal text of the full-scan confirmation gate. -/
def refusalText : String := "\x7b\"error\": \"Full scan requires confirm=true\"\x7d"

/-- `liteHandler` of the source. -/
def liteHandler (env : Env) (req : CallToolRequest) (w : World) : Outcome × World :=
  match asString (mapGet req.Arguments "targets") with
  | none => (Outcome.ret (.error "invalid or missing 'targets'"), w)
  | some raw => runHttpx env (parseTargets raw) "lite" w

/-- `fullHandler` of the source. -/
def fullHandler (env : Env) (req : CallToolRequest) (w : World) : Outcome × World :=
  match asString (mapGet req.Arguments "targets") with
  | none => (Outcome.ret (.error "invalid or missing 'targets'"), w)
  | some raw =>
    match asBool (mapGet req.Arguments "confirm") with
    | some true => runHttpx env (parseTargets raw) "full" w
    | _ => (Outcome.ret (.ok (NewToolResultText (Payload.literal refusalText))), w)

/-- The "domain -> IP resolution if needed" block of `asnHandler`: the string
that is passed on to `client.GetData`. -/
def resolveInput (env : Env) (input : String) (w : World) : String × World :=
  match env.parseIP input with
  | some _ => (input, w)
  | none =>
    let w := w.record (Event.asnResolveDomain input)
    match env.resolveDomain input with
    | .ok (first :: _) => (first, w)
    | _ => (input, w)

/-- `asnHandler` of the source. -/
def asnHandler (env : Env) (req : CallToolRequest) (w : World) : Outcome × World :=
  match asString (mapGet req.Arguments "input") with
  | none => (Outcome.ret (.error "missing or invalid 'input'"), w)
  | some input =>
    if TrimSpace input = "" then (Outcome.ret (.error "missing or invalid 'input'"), w)
    else
      let w := w.record Event.asnNewClient
      match env.newClient with
      | .error err => (Outcome.ret (.error ("asnmap init failed: " ++ err)), w)
      | .ok _ =>
        let (input, w) := resolveInput env input w
        let w := w.record (Event.asnGetData input)
        match env.getData input with
        | .error err => (Outcome.ret (.error err), w)
        | .ok resp =>
          match env.mapToResults resp with
          | .error err => (Outcome.ret (.error err), w)
          | .ok mapped =>
            (Outcome.ret (.ok (NewToolResultText (Payload.asnRecords mapped))), w)


/-! ## Sample inputs -/

/-- A world before any call: the two standard streams of the process, an
empty log. -/
def sampleWorld : World :=
  { stdout := Stream.orig 1, stdin := Stream.orig 0, log := [] }

/-- A probe result that carries an error marker. -/
def failedResult : Result :=
  { Err := some "connection refused", ASN := none, A := [], Response := none, Raw := [],
    decoded := [("input", JVal.str "down.test")] }

/-- A probe result with one resolved address, two headers and a small body. -/
def okResult : Result :=
  { Err := none, ASN := none, A := ["8.8.8.8"],
    Response := some { Headers := some [("Vary", ["a", "b"]), ("Server", ["nginx"])] },
    Raw := [72, 84, 84, 80, 13, 10, 13, 10, 104, 105],
    decoded := [("input", JVal.str "example.com"), ("status_code", JVal.num "200")] }

/-- A probe result for which the engine already supplied ASN data. -/
def asnResult : Result :=
  { Err := none, ASN := some (JVal.str "AS15169"), A := ["8.8.4.4"], Response := none,
    Raw := [72, 84, 84, 80],
    decoded := [("input", JVal.str "dns.test"), ("asn", JVal.str "AS15169")] }

/-- Collaborators that all succeed: `8.8.8.8` is the only IP literal,
`example.com` resolves to two addresses, the resolver maps a query to two
records, the engine emits three results and returns. -/
def sampleEnv : Env :=
  { parseIP := fun s => if s = "8.8.8.8" then some s else none,
    newClient := .ok (),
    resolveDomain := fun d =>
      if d = "example.com" then .ok ["8.8.8.8", "8.8.4.4"] else .error "no such host",
    getData := fun q => .ok { body := q },
    mapToResults := fun resp => .ok [{ body := resp.body }, { body := "second" }],
    validateOptions := fun o => .ok o,
    runnerNew := fun _ => .ok (),
    runEnumeration := fun _ => { emitted := [okResult, failedResult, asnResult], panics := false },
    openDevNullOut := true,
    openDevNullIn := true }

/-- A probe result whose raw response is the status line `HTTP/1.1 200 OK`,
a blank line, and a body of 500 bytes. -/
def longBodyResult : Result :=
  { Err := none, ASN := none, A := [], Response := none,
    Raw := [72, 84, 84, 80, 47, 49, 46, 49, 32, 50, 48, 48, 32, 79, 75] ++ crlf2
      ++ List.replicate 500 120,
    decoded := [("input", JVal.str "big.test")] }

/-- A probe result whose first resolved address is not an IP literal. -/
def oddAddressResult : Result :=
  { Err := none, ASN := none, A := ["not-an-ip"], Response := none, Raw := [],
    decoded := [("input", JVal.str "odd.test")] }

/-- The collaborators of `sampleEnv`, except that opening the discard device
for writing fails. -/
def noDevNullEnv : Env :=
  { sampleEnv with openDevNullOut := false }

/-- The collaborators of `sampleEnv`, except that the engine run panics after
emitting one result. -/
def panickingEnv : Env :=
  { sampleEnv with runEnumeration := fun _ => { emitted := [okResult], panics := true } }

/-! # Properties -/

/-! ## Lemmas on the string primitives -/

theorem Index_lf_cons_lf (t : List Char) : Index ('\n' :: t) ['\n'] = some 0 := by
  simp [Index, List.isPrefixOf]

theorem Index_lf_cons_ne (c : Char) (t : List Char) (h : c ≠ '\n') :
    Index (c :: t) ['\n'] = (Index t ['\n']).map (fun m => m + 1) := by
  have h2 : ¬ ('\n' = c) := fun e => h e.symm
  simp [Index, List.isPrefixOf, h2]

theorem Index_lf_nil : Index ([] : List Char) ['\n'] = none := by
  simp [Index, List.isPrefixOf]

theorem countLoop_lf (fuel : Nat) (s : List Char) (h : s.length ≤ fuel) :
    countLoop ['\n'] fuel s = s.count '\n' := by
  induction s generalizing fuel with
  | nil =>
    cases fuel with
    | zero => simp [countLoop]
    | succ f => simp [countLoop, Index_lf_nil]
  | cons c t ih =>
    cases fuel with
    | zero => simp at h
    | succ f =>
      have hf : t.length ≤ f := by simpa using h
      by_cases hc : c = '\n'
      · subst hc
        simp [countLoop, Index_lf_cons_lf, ih f hf]
      · have hrec := ih (f + 1) (Nat.le_succ_of_le hf)
        have hcount : (c :: t).count '\n' = t.count '\n' := by
          simp [List.count_cons, hc]
        rw [hcount, ← hrec]
        simp only [countLoop, Index_lf_cons_ne c t hc]
        cases hi : Index t ['\n'] with
        | none => simp
        | some i =>
          simp only [Option.map_some', List.length_singleton]
          rw [List.drop_succ_cons]

theorem Count_lf (s : List Char) : Count s ['\n'] = s.count '\n' := by
  simp [Count, countLoop_lf s.length s (Nat.le_refl _)]

theorem splitLoop_lf (k : Nat) (s : List Char) (h : s.count '\n' ≤ k) :
    splitLoop ['\n'] k s = specLines s := by
  induction s generalizing k with
  | nil =>
    cases k with
    | zero => simp [splitLoop, specLines]
    | succ k => simp [splitLoop, specLines, Index_lf_nil]
  | cons c t ih =>
    by_cases hc : c = '\n'
    · subst hc
      cases k with
      | zero => simp at h
      | succ k =>
        have hk : t.count '\n' ≤ k := by simpa using h
        simp [splitLoop, specLines, Index_lf_cons_lf, ih k hk]
    · have hcount : (c :: t).count '\n' = t.count '\n' := by
        simp [List.count_cons, hc]
      rw [hcount] at h
      have hrec := ih k h
      cases k with
      | zero =>
        simp only [splitLoop] at hrec
        simp [splitLoop, specLines, hc, ← hrec]
      | succ k =>
        simp only [splitLoop] at hrec
        simp only [splitLoop, specLines, hc, if_false, Index_lf_cons_ne c t hc, ← hrec]
        cases hi : Index t ['\n'] with
        | none => simp
        | some i => simp

theorem Split_lf (s : List Char) : Split s ['\n'] = specLines s := by
  unfold Split SplitN
  apply splitLoop_lf
  rw [Count_lf]
  have h := List.count_le_length '\n' s
  omega

theorem trimSpaceChars_not_all_space (s : List Char) (h : trimSpaceChars s ≠ []) :
    (trimSpaceChars s).all isSpace = false := by
  have hl := List.rdropWhile_last_not isSpace (s.dropWhile isSpace) h
  rw [Bool.eq_false_iff]
  intro hall
  rw [List.all_eq_true] at hall
  exact hl (hall _ (List.getLast_mem h))

/-- C2. For every input string, `parseTargets` returns the list obtained by
splitting on line breaks, trimming each piece and deleting the pieces that are
empty after trimming, in the original order with duplicates kept; no returned
target is empty or consists of white space only; the function is total; and
the example input yields the two expected targets. -/
theorem parseTargets_spec :
    (∀ s : String, parseTargets s = specParse s) ∧
    (∀ (s t : String), t ∈ parseTargets s → t ≠ "" ∧ t.data.all isSpace = false) ∧
    parseTargets "example.com\n\nhttp://foo.test \n" = ["example.com", "http://foo.test"] := by
  refine ⟨?_, ?_, ?_⟩
  · intro s
    simp [parseTargets, specParse, Split_lf]
  · intro s t ht
    simp only [parseTargets, List.mem_filter, List.mem_map] at ht
    obtain ⟨⟨l, _, hl⟩, hne⟩ := ht
    have hne2 : t ≠ "" := by simpa using hne
    refine ⟨hne2, ?_⟩
    subst hl
    apply trimSpaceChars_not_all_space
    intro hnil
    apply hne2
    simp [TrimSpace, hnil]
  · decide

/-! ## Lemmas on Go maps -/

theorem mapGet_mapSet_same {V : Type} (m : GoMap V) (k : String) (v : V) :
    mapGet (mapSet m k v) k = some v := by
  induction m with
  | nil => simp [mapSet, mapGet]
  | cons p rest ih =>
    obtain ⟨k', v'⟩ := p
    by_cases h : k' = k
    · simp [mapSet, mapGet, h]
    · simp [mapSet, mapGet, h, ih]

theorem mapGet_mapSet_ne {V : Type} (m : GoMap V) (k j : String) (v : V) (h : k ≠ j) :
    mapGet (mapSet m k v) j = mapGet m j := by
  induction m with
  | nil => simp [mapSet, mapGet, h]
  | cons p rest ih =>
    obtain ⟨k', v'⟩ := p
    by_cases hk : k' = k
    · subst hk
      simp [mapSet, mapGet, h]
    · by_cases hj : k' = j
      · subst hj
        simp [mapSet, mapGet, hk]
      · simp [mapSet, mapGet, hk, hj, ih]

theorem mapGet_map {V W : Type} (f : V → W) (m : GoMap V) (k : String) :
    mapGet (m.map (fun kv => (kv.1, f kv.2))) k = (mapGet m k).map f := by
  induction m with
  | nil => simp [mapGet]
  | cons p rest ih =>
    obtain ⟨k', v'⟩ := p
    by_cases h : k' = k
    · simp [mapGet, h]
    · simp [mapGet, h, ih]

/-! ## Operation surface -/

/-- C1. A full-scan request whose `targets` is a string and whose `confirm` is
absent or the boolean false gets a successful, non-error result carrying the
refusal text, and the world is left as it was: no collaborator call is logged,
so the probe engine is neither configured nor run. -/
theorem fullHandler_refusal (env : Env) (req : CallToolRequest) (w : World) (raw : String)
    (ht : mapGet req.Arguments "targets" = some (JVal.str raw))
    (hc : mapGet req.Arguments "confirm" = none ∨
      mapGet req.Arguments "confirm" = some (JVal.bool false)) :
    fullHandler env req w =
      (Outcome.ret (.ok
        { isError := false,
          text := Payload.literal "\x7b\"error\": \"Full scan requires confirm=true\"\x7d" }),
       w) := by
  rcases hc with hc | hc <;>
    simp [fullHandler, ht, hc, asString, asBool, NewToolResultText, refusalText]

/-- C8. When `targets` is missing or not a string, `liteHandler` and
`fullHandler` return an error and no result, whatever `confirm` is; when
`input` is missing or not a string, `asnHandler` returns an error; in each
case the world is unchanged, so neither the probe engine nor the ASN resolver
was called. -/
theorem handlers_reject_bad_argument (env : Env) (req : CallToolRequest) (w : World) :
    ((∀ s, mapGet req.Arguments "targets" ≠ some (JVal.str s)) →
      liteHandler env req w = (Outcome.ret (.error "invalid or missing 'targets'"), w) ∧
      fullHandler env req w = (Outcome.ret (.error "invalid or missing 'targets'"), w)) ∧
    ((∀ s, mapGet req.Arguments "input" ≠ some (JVal.str s)) →
      asnHandler env req w = (Outcome.ret (.error "missing or invalid 'input'"), w)) := by
  have key : ∀ k : String, (∀ s, mapGet req.Arguments k ≠ some (JVal.str s)) →
      asString (mapGet req.Arguments k) = none := by
    intro k hk
    cases hv : mapGet req.Arguments k with
    | none => rfl
    | some v =>
      cases v with
      | str s => exact absurd hv (hk s)
      | _ => rfl
  refine ⟨fun h => ⟨?_, ?_⟩, fun h => ?_⟩
  · simp [liteHandler, key _ h]
  · simp [fullHandler, key _ h]
  · simp [asnHandler, key _ h]

/-- Witness of C1: a request with `targets` and no `confirm`. -/
theorem fullHandler_refusal_witness :
    fullHandler sampleEnv { Arguments := [("targets", JVal.str "example.com")] } sampleWorld =
      (Outcome.ret (.ok
        { isError := false,
          text := Payload.literal "\x7b\"error\": \"Full scan requires confirm=true\"\x7d" }),
       sampleWorld) :=
  fullHandler_refusal sampleEnv { Arguments := [("targets", JVal.str "example.com")] }
    sampleWorld "example.com" rfl (Or.inl rfl)

/-- Witness of C8: a request whose `targets` is a number and whose `confirm`
is true, and which has no `input`. -/
theorem handlers_reject_bad_argument_witness :
    (liteHandler sampleEnv
        { Arguments := [("targets", JVal.num "7"), ("confirm", JVal.bool true)] } sampleWorld =
        (Outcome.ret (.error "invalid or missing 'targets'"), sampleWorld) ∧
      fullHandler sampleEnv
        { Arguments := [("targets", JVal.num "7"), ("confirm", JVal.bool true)] } sampleWorld =
        (Outcome.ret (.error "invalid or missing 'targets'"), sampleWorld)) ∧
    asnHandler sampleEnv
        { Arguments := [("targets", JVal.num "7"), ("confirm", JVal.bool true)] } sampleWorld =
        (Outcome.ret (.error "missing or invalid 'input'"), sampleWorld) :=
  have h := handlers_reject_bad_argument sampleEnv
    { Arguments := [("targets", JVal.num "7"), ("confirm", JVal.bool true)] } sampleWorld
  ⟨h.1 (fun s hs => by simp [mapGet] at hs), h.2 (fun s hs => by simp [mapGet] at hs)⟩

/-! ## Probe configuration selector -/

/-- C6. The mode switch of `runHttpx` yields a profile for `"lite"` and for
`"full"` and for no other mode: any other mode makes `runHttpx` return the
invalid-mode error with the world untouched (nothing validated, constructed or
run); the lite profile is the baseline (GET, 10 threads, 3 retries, silent,
no colour, JSON output, ASN off, redirect following off, every other flag
off); the full profile has the same baseline fields and exactly the nine
flags ASN, probe, favicon, JARM, TLS grab, tech detect, CSP probe, HTTP/2
probe and follow redirects switched on. -/
theorem selectOptions_modes (env : Env) (targets : List String) (mode : String) (w : World) :
    (mode ≠ "lite" → mode ≠ "full" →
      selectOptions targets mode = .error "invalid mode" ∧
      runHttpx env targets mode w = (Outcome.ret (.error "invalid mode"), w)) ∧
    selectOptions targets "lite" = .ok
      { Methods := "GET", InputTargetHost := targets, Silent := true, Threads := 10,
        Retries := 3, JSONOutput := true, ResponseInStdout := false, NoColor := true,
        Asn := false, Probe := false, Favicon := false, Jarm := false, TLSGrab := false,
        TechDetect := false, CSPProbe := false, HTTP2Probe := false,
        FollowRedirects := false } ∧
    selectOptions targets "full" = .ok
      { Methods := "GET", InputTargetHost := targets, Silent := true, Threads := 10,
        Retries := 3, JSONOutput := true, ResponseInStdout := false, NoColor := true,
        Asn := true, Probe := true, Favicon := true, Jarm := true, TLSGrab := true,
        TechDetect := true, CSPProbe := true, HTTP2Probe := true,
        FollowRedirects := true } := by
  refine ⟨fun h1 h2 => ?_, ?_, ?_⟩
  · have hs : selectOptions targets mode = .error "invalid mode" := by
      simp [selectOptions, h1, h2]
    exact ⟨hs, by simp [runHttpx, hs]⟩
  · simp [selectOptions, baseOptions]
  · simp [selectOptions, baseOptions]

/-- Witness of C6: the mode `"medium"`. -/
theorem selectOptions_modes_witness :
    selectOptions ["example.com"] "medium" = .error "invalid mode" ∧
    runHttpx sampleEnv ["example.com"] "medium" sampleWorld =
      (Outcome.ret (.error "invalid mode"), sampleWorld) :=
  (selectOptions_modes sampleEnv ["example.com"] "medium" sampleWorld).1
    (by decide) (by decide)

/-! ## Lemmas on `Index` and `SplitN` -/

theorem Index_of_prefix {α : Type} [DecidableEq α] (s sep : List α) (h : sep <+: s) :
    Index s sep = some 0 := by
  have hb : sep.isPrefixOf s = true := List.isPrefixOf_iff_prefix.mpr h
  cases s with
  | nil => simp [Index, hb]
  | cons c t => simp [Index, hb]

theorem Index_none_of_not_infix {α : Type} [DecidableEq α] (s sep : List α)
    (h : ¬ sep <:+: s) : Index s sep = none := by
  induction s with
  | nil =>
    have hb : ¬ sep.isPrefixOf ([] : List α) = true := fun hp =>
      h (List.isPrefixOf_iff_prefix.mp hp).isInfix
    simp [Index, hb]
  | cons c t ih =>
    have hb : ¬ sep.isPrefixOf (c :: t) = true := fun hp =>
      h (List.isPrefixOf_iff_prefix.mp hp).isInfix
    have ht : ¬ sep <:+: t := fun hi => h (List.infix_cons hi)
    simp [Index, hb, ih ht]

theorem Index_first_occurrence {α : Type} [DecidableEq α] (A B sep : List α)
    (h : ¬ sep <:+: A ++ sep.dropLast) : Index (A ++ sep ++ B) sep = some A.length := by
  induction A with
  | nil =>
    apply Index_of_prefix
    simp
  | cons a A ih =>
    have hnp : ¬ sep.isPrefixOf (a :: (A ++ sep ++ B)) = true := by
      intro hp
      have hp1 : sep <+: a :: (A ++ sep ++ B) := List.isPrefixOf_iff_prefix.mp hp
      have hp2 : (a :: A) ++ sep.dropLast <+: a :: (A ++ sep ++ B) := by
        obtain ⟨t, ht⟩ := List.dropLast_prefix sep
        refine ⟨t ++ B, ?_⟩
        have e1 : a :: (A ++ sep ++ B) = a :: (A ++ (sep.dropLast ++ t) ++ B) := by rw [ht]
        rw [e1]
        simp
      have hlen : sep.length ≤ ((a :: A) ++ sep.dropLast).length := by
        simp only [List.length_append, List.length_cons, List.length_dropLast]
        omega
      exact h (List.prefix_of_prefix_length_le hp1 hp2 hlen).isInfix
    have hA : ¬ sep <:+: A ++ sep.dropLast := fun hi => h (List.infix_cons hi)
    have e : (a :: A) ++ sep ++ B = a :: (A ++ sep ++ B) := by simp
    rw [e]
    show (if sep.isPrefixOf (a :: (A ++ sep ++ B)) = true then some 0
      else (Index (A ++ sep ++ B) sep).map (fun m => m + 1)) = some ((a :: A).length)
    rw [if_neg hnp, ih hA]
    rfl

theorem SplitN_two {α : Type} [DecidableEq α] (s sep : List α) (hs : s ≠ []) :
    SplitN s sep 2 =
      match Index s sep with
      | none => [s]
      | some m => [s.take m, s.drop (m + sep.length)] := by
  have hl : 0 < s.length := List.length_pos.mpr hs
  have hk : min 2 (s.length + 1) - 1 = 1 := by omega
  simp only [SplitN, hk, splitLoop]

/-! ## Result shaper: body preview -/

theorem setBodyPreview_found (r : Result) (parsed : GoMap Val) (A B : Bytes)
    (hraw : r.Raw = A ++ crlf2 ++ B) (hfirst : ¬ crlf2 <:+: A ++ crlf2.dropLast) :
    setBodyPreview r parsed = mapSet parsed "body_preview" (Val.bytes (B.take 160)) := by
  have hne : r.Raw ≠ [] := by
    rw [hraw]
    simp [crlf2]
  have hidx : Index r.Raw crlf2 = some A.length := by
    rw [hraw]
    exact Index_first_occurrence A B crlf2 hfirst
  have hsplit : SplitN r.Raw crlf2 2 = [A, B] := by
    rw [SplitN_two r.Raw crlf2 hne, hidx]
    simp [hraw]
  have hbody : (if B.length > 160 then B.take 160 else B) = B.take 160 := by
    split
    · rfl
    · rw [List.take_of_length_le (by omega)]
  simp only [setBodyPreview, hne, ne_eq, not_false_eq_true, if_true, hsplit, hbody]

theorem setBodyPreview_absent (r : Result) (parsed : GoMap Val)
    (h : ¬ crlf2 <:+: r.Raw) : setBodyPreview r parsed = parsed := by
  unfold setBodyPreview
  split
  · rename_i hne
    rw [SplitN_two r.Raw crlf2 hne, Index_none_of_not_infix r.Raw crlf2 h]
  · rfl

theorem asnFallback_get_ne (env : Env) (r : Result) (parsed : GoMap Val) (w : World)
    (k : String) (hk : "asn" ≠ k) :
    mapGet (asnFallback env r parsed w).1 k = mapGet parsed k := by
  unfold asnFallback
  split
  · split
    · rfl
    · split
      · rfl
      · split
        · rfl
        · split
          · simp [mapGet_mapSet_ne _ _ _ _ hk]
          · rfl
  · rfl

theorem setHeaders_get_ne (r : Result) (parsed : GoMap Val) (k : String)
    (hk : "headers" ≠ k) : mapGet (setHeaders r parsed) k = mapGet parsed k := by
  unfold setHeaders
  split
  · rfl
  · split
    · rfl
    · exact mapGet_mapSet_ne _ _ _ _ hk

theorem setBodyPreview_get_ne (r : Result) (parsed : GoMap Val) (k : String)
    (hk : "body_preview" ≠ k) : mapGet (setBodyPreview r parsed) k = mapGet parsed k := by
  unfold setBodyPreview
  split
  · split
    · exact mapGet_mapSet_ne _ _ _ _ hk
    · rfl
  · rfl

theorem shapeResult_full (env : Env) (r : Result) (w : World) :
    (shapeResult env "full" r w).1 =
      setBodyPreview r (setHeaders r
        (asnFallback env r (r.decoded.map (fun kv => (kv.1, Val.json kv.2))) w).1) := by
  simp [shapeResult]

theorem shapeResult_lite (env : Env) (r : Result) (w : World) :
    (shapeResult env "lite" r w).1 =
      (asnFallback env r (r.decoded.map (fun kv => (kv.1, Val.json kv.2))) w).1 := by
  simp [shapeResult]

/-- C3. Body preview of a shaped record. In full mode, when the raw response is
`A ++ "\r\n\r\n" ++ B` with no earlier occurrence of the separator, the record's
`body_preview` is the first `min 160 |B|` bytes of `B`; in particular for the
status line `HTTP/1.1 200 OK`, the separator and a body `X` of 500 bytes it
is the first 160 bytes of `X`, of length exactly 160. In full mode without
any separator in the raw response, and always in lite mode, the shaper does
not set `body_preview`: the entry is the one the decoded record had. -/
theorem bodyPreview_spec (env : Env) (r : Result) (w : World) :
    (∀ A B : Bytes, r.Raw = A ++ crlf2 ++ B → ¬ crlf2 <:+: A ++ crlf2.dropLast →
      mapGet (shapeResult env "full" r w).1 "body_preview" = some (Val.bytes (B.take 160)) ∧
      (B.take 160).length = min 160 B.length) ∧
    (∀ X : Bytes, X.length = 500 →
      r.Raw = [72, 84, 84, 80, 47, 49, 46, 49, 32, 50, 48, 48, 32, 79, 75] ++ crlf2 ++ X →
      mapGet (shapeResult env "full" r w).1 "body_preview" = some (Val.bytes (X.take 160)) ∧
      (X.take 160).length = 160) ∧
    (¬ crlf2 <:+: r.Raw →
      mapGet (shapeResult env "full" r w).1 "body_preview" =
        (mapGet r.decoded "body_preview").map Val.json) ∧
    mapGet (shapeResult env "lite" r w).1 "body_preview" =
      (mapGet r.decoded "body_preview").map Val.json := by
  have hbase : ∀ k : String, "asn" ≠ k →
      mapGet (asnFallback env r (r.decoded.map (fun kv => (kv.1, Val.json kv.2))) w).1 k =
        (mapGet r.decoded k).map Val.json := by
    intro k hk
    rw [asnFallback_get_ne env r _ w k hk, mapGet_map]
  have hfound : ∀ A B : Bytes, r.Raw = A ++ crlf2 ++ B → ¬ crlf2 <:+: A ++ crlf2.dropLast →
      mapGet (shapeResult env "full" r w).1 "body_preview" =
        some (Val.bytes (B.take 160)) := by
    intro A B hraw hfirst
    rw [shapeResult_full, setBodyPreview_found r _ A B hraw hfirst, mapGet_mapSet_same]
  refine ⟨fun A B hraw hfirst => ⟨hfound A B hraw hfirst, ?_⟩, fun X hX hraw => ⟨?_, ?_⟩,
    fun habs => ?_, ?_⟩
  · simp [List.length_take]
  · exact hfound _ X hraw (by decide)
  · simp [List.length_take, hX]
  · rw [shapeResult_full, setBodyPreview_absent r _ habs,
      setHeaders_get_ne r _ _ (by decide), hbase _ (by decide)]
  · rw [shapeResult_lite, hbase _ (by decide)]

/-- Witness of C3: a 500-byte body after the status line, a two-byte body, and
a raw response without separator. -/
theorem bodyPreview_spec_witness :
    (mapGet (shapeResult sampleEnv "full" longBodyResult sampleWorld).1 "body_preview" =
        some (Val.bytes ((List.replicate 500 120).take 160)) ∧
      ((List.replicate 500 (120 : UInt8)).take 160).length = 160) ∧
    (mapGet (shapeResult sampleEnv "full" okResult sampleWorld).1 "body_preview" =
        some (Val.bytes (([104, 105] : Bytes).take 160)) ∧
      (([104, 105] : Bytes).take 160).length = min 160 ([104, 105] : Bytes).length) ∧
    mapGet (shapeResult sampleEnv "full" asnResult sampleWorld).1 "body_preview" =
      (mapGet asnResult.decoded "body_preview").map Val.json :=
  ⟨(bodyPreview_spec sampleEnv longBodyResult sampleWorld).2.1 (List.replicate 500 120)
      (List.length_replicate 500 120) rfl,
    (bodyPreview_spec sampleEnv okResult sampleWorld).1 [72, 84, 84, 80] [104, 105] rfl
      (by decide),
    (bodyPreview_spec sampleEnv asnResult sampleWorld).2.2.1 (by decide)⟩

/-! ## Result shaper: header flattening -/

theorem Join_eq_intercalate {α : Type} (elems : List (List α)) (sep : List α) :
    Join elems sep = List.intercalate sep elems := by
  induction elems with
  | nil => simp [Join, List.intercalate]
  | cons a rest ih =>
    cases rest with
    | nil => simp [Join, List.intercalate]
    | cons b rest =>
      simp only [Join, ih]
      simp [List.intercalate, List.intersperse]

theorem mapGet_none_of_not_mem {V : Type} (m : GoMap V) (k : String)
    (h : k ∉ m.map Prod.fst) : mapGet m k = none := by
  induction m with
  | nil => rfl
  | cons p rest ih =>
    obtain ⟨k', v'⟩ := p
    simp only [List.map_cons, List.mem_cons, not_or] at h
    have hk : ¬ k' = k := fun e => h.1 e.symm
    simp [mapGet, hk, ih h.2]

theorem foldl_mapSet_get {V W : Type} (f : V → W) (m : GoMap V) (acc : GoMap W) (k : String)
    (hwf : mapWF m) :
    mapGet (m.foldl (fun out kv => mapSet out kv.1 (f kv.2)) acc) k =
      match mapGet m k with
      | some v => some (f v)
      | none => mapGet acc k := by
  induction m generalizing acc with
  | nil => simp [mapGet]
  | cons p rest ih =>
    obtain ⟨k', v'⟩ := p
    have hwf2 : (k' ∉ rest.map Prod.fst) ∧ mapWF rest := by
      simpa [mapWF] using hwf
    rw [List.foldl_cons, ih _ hwf2.2]
    by_cases hk : k' = k
    · subst hk
      simp [mapGet, mapGet_none_of_not_mem rest k' hwf2.1, mapGet_mapSet_same]
    · simp only [mapGet, hk, if_false]
      cases mapGet rest k with
      | none => simp [mapGet_mapSet_ne _ _ _ _ hk]
      | some v => rfl

theorem flattenHeaders_get (hs : GoMap (List String)) (k : String) (hwf : mapWF hs) :
    mapGet (flattenHeaders hs) k = (mapGet hs k).map (fun v => joinStrings v ", ") := by
  unfold flattenHeaders
  rw [foldl_mapSet_get (fun v => joinStrings v ", ") hs [] k hwf]
  cases mapGet hs k <;> simp [mapGet]

/-- C7. Header flattening. In full mode, for a result whose response metadata
carries a header map `H` (a Go map: no name twice), the shaped record's
`headers` entry is a name-to-string map that has an entry exactly for the
names of `H`, each mapped to that name's values joined in order with `", "`
(so `["a", "b"]` gives `"a, b"` and a single value is unchanged). In lite mode
the shaper does not write `headers`: the entry is the decoded record's. -/
theorem headers_spec (env : Env) (r : Result) (w : World) (resp : Response)
    (H : GoMap (List String)) (hresp : r.Response = some resp) (hH : resp.Headers = some H)
    (hwf : mapWF H) :
    (∃ hm : GoMap String,
      mapGet (shapeResult env "full" r w).1 "headers" = some (Val.headers hm) ∧
      ∀ name, mapGet hm name =
        (mapGet H name).map
          (fun vs => String.mk (List.intercalate [',', ' '] (vs.map String.data)))) ∧
    String.mk (List.intercalate [',', ' '] (["a", "b"].map String.data)) = "a, b" ∧
    (∀ s : String, String.mk (List.intercalate [',', ' '] ([s].map String.data)) = s) ∧
    mapGet (shapeResult env "lite" r w).1 "headers" =
      (mapGet r.decoded "headers").map Val.json := by
  refine ⟨⟨flattenHeaders H, ?_, ?_⟩, by decide, ?_, ?_⟩
  · rw [shapeResult_full, setBodyPreview_get_ne r _ _ (by decide)]
    simp [setHeaders, hresp, hH, mapGet_mapSet_same]
  · intro name
    rw [flattenHeaders_get H name hwf]
    cases mapGet H name with
    | none => rfl
    | some vs =>
      simp only [Option.map_some', joinStrings, Join_eq_intercalate]
  · intro s
    simp [List.intercalate]
  · rw [shapeResult_lite, asnFallback_get_ne env r _ w _ (by decide), mapGet_map]

/-- Witness of C7: the two headers of the sample result. -/
theorem headers_spec_witness :
    (∃ hm : GoMap String,
      mapGet (shapeResult sampleEnv "full" okResult sampleWorld).1 "headers" =
        some (Val.headers hm) ∧
      ∀ name, mapGet hm name =
        (mapGet [("Vary", ["a", "b"]), ("Server", ["nginx"])] name).map
          (fun vs => String.mk (List.intercalate [',', ' '] (vs.map String.data)))) ∧
    String.mk (List.intercalate [',', ' '] (["a", "b"].map String.data)) = "a, b" ∧
    (∀ s : String, String.mk (List.intercalate [',', ' '] ([s].map String.data)) = s) ∧
    mapGet (shapeResult sampleEnv "lite" okResult sampleWorld).1 "headers" =
      (mapGet okResult.decoded "headers").map Val.json :=
  headers_spec sampleEnv okResult sampleWorld
    { Headers := some [("Vary", ["a", "b"]), ("Server", ["nginx"])] }
    [("Vary", ["a", "b"]), ("Server", ["nginx"])] rfl rfl (by simp [mapWF])

/-! ## Result shaper: ASN fallback -/

theorem asnFallback_skipped (env : Env) (r : Result) (parsed : GoMap Val) (w : World)
    (h : r.ASN ≠ none ∨ r.A = []) : asnFallback env r parsed w = (parsed, w) := by
  unfold asnFallback
  split
  · rename_i hA hL
    rcases h with h | h
    · exact absurd hA h
    · rw [h] at hL
      cases hL
  · rfl

theorem asnFallback_success (env : Env) (r : Result) (parsed : GoMap Val) (w : World)
    (a0 ip : String) (rest : List String) (resp : AsnResponse) (a : AsnRecord)
    (more : List AsnRecord) (hA : r.ASN = none) (hL : r.A = a0 :: rest)
    (hn : env.newClient = .ok ()) (hp : env.parseIP a0 = some ip)
    (hg : env.getData ip = .ok resp) (hm : env.mapToResults resp = .ok (a :: more)) :
    asnFallback env r parsed w =
      (mapSet parsed "asn" (Val.asn a),
        (w.record Event.asnNewClient).record (Event.asnGetData ip)) := by
  simp [asnFallback, hA, hL, hn, hp, hg, hm]

theorem asnFallback_failure (env : Env) (r : Result) (parsed : GoMap Val) (w : World)
    (h : ¬ ∃ (a0 ip : String) (rest : List String) (resp : AsnResponse) (a : AsnRecord)
      (more : List AsnRecord), r.ASN = none ∧ r.A = a0 :: rest ∧ env.newClient = .ok () ∧
        env.parseIP a0 = some ip ∧ env.getData ip = .ok resp ∧
        env.mapToResults resp = .ok (a :: more)) :
    (asnFallback env r parsed w).1 = parsed := by
  unfold asnFallback
  split
  · rename_i a0 rest hA hL
    split
    · rfl
    · rename_i u hn
      split
      · rfl
      · rename_i ip hp
        split
        · rfl
        · rename_i resp hg
          split
          · rename_i a more hm
            exact absurd ⟨a0, ip, rest, resp, a, more, hA, hL, hn, hp, hg, hm⟩ h
          · rfl
  · rfl

theorem shapeResult_get_asn (env : Env) (mode : String) (r : Result) (w : World) :
    mapGet (shapeResult env mode r w).1 "asn" =
      mapGet (asnFallback env r (r.decoded.map (fun kv => (kv.1, Val.json kv.2))) w).1
        "asn" := by
  by_cases hmode : mode = "full"
  · subst hmode
    rw [shapeResult_full, setBodyPreview_get_ne r _ _ (by decide),
      setHeaders_get_ne r _ _ (by decide)]
  · simp [shapeResult, hmode]

theorem shapeResult_world (env : Env) (mode : String) (r : Result) (w : World) :
    (shapeResult env mode r w).2 =
      (asnFallback env r (r.decoded.map (fun kv => (kv.1, Val.json kv.2))) w).2 := by
  simp [shapeResult]

/-- C5. ASN fallback of the shaper, in either mode. (1) When the result carries
ASN data or has no resolved address, the resolver is not consulted (the world
is unchanged). (2) The shaped record's `asn` entry is a mapped record `a`
exactly when the result carries no ASN data, has a first resolved address that
parses as an IP literal, the resolver client is available, and the query and
the mapping succeed with a non-empty list whose first record is `a`. (3) When
the result carries ASN data, its `asn` entry is the decoded one, untouched.
(4) In every case where the conditions of (2) fail, no `asn` key is added: the
entry is the decoded one. (5) A result without error marker is always shaped
and appended to the results. -/
theorem asnFallback_spec (env : Env) (mode : String) (r : Result) (w : World)
    (results : List (GoMap Val)) :
    ((r.ASN ≠ none ∨ r.A = []) → (shapeResult env mode r w).2 = w) ∧
    (∀ a : AsnRecord, mapGet (shapeResult env mode r w).1 "asn" = some (Val.asn a) ↔
      ∃ (a0 ip : String) (rest : List String) (resp : AsnResponse) (more : List AsnRecord),
        r.ASN = none ∧ r.A = a0 :: rest ∧ env.newClient = .ok () ∧
        env.parseIP a0 = some ip ∧ env.getData ip = .ok resp ∧
        env.mapToResults resp = .ok (a :: more)) ∧
    (r.ASN ≠ none →
      mapGet (shapeResult env mode r w).1 "asn" = (mapGet r.decoded "asn").map Val.json) ∧
    ((¬ ∃ (a0 ip : String) (rest : List String) (resp : AsnResponse) (a : AsnRecord)
        (more : List AsnRecord), r.ASN = none ∧ r.A = a0 :: rest ∧ env.newClient = .ok () ∧
        env.parseIP a0 = some ip ∧ env.getData ip = .ok resp ∧
        env.mapToResults resp = .ok (a :: more)) →
      mapGet (shapeResult env mode r w).1 "asn" = (mapGet r.decoded "asn").map Val.json) ∧
    (r.Err = none →
      onResult env mode (results, w) r =
        (results ++ [(shapeResult env mode r w).1], (shapeResult env mode r w).2)) := by
  have hfail : (¬ ∃ (a0 ip : String) (rest : List String) (resp : AsnResponse)
      (a : AsnRecord) (more : List AsnRecord), r.ASN = none ∧ r.A = a0 :: rest ∧
        env.newClient = .ok () ∧ env.parseIP a0 = some ip ∧ env.getData ip = .ok resp ∧
        env.mapToResults resp = .ok (a :: more)) →
      mapGet (shapeResult env mode r w).1 "asn" =
        (mapGet r.decoded "asn").map Val.json := by
    intro h
    rw [shapeResult_get_asn, asnFallback_failure env r _ w h, mapGet_map]
  refine ⟨fun h => ?_, fun a => ⟨fun hget => ?_, fun hex => ?_⟩, fun h => ?_, hfail, fun h => ?_⟩
  · rw [shapeResult_world, asnFallback_skipped env r _ w h]
  · by_cases hs : ∃ (a0 ip : String) (rest : List String) (resp : AsnResponse)
        (a : AsnRecord) (more : List AsnRecord), r.ASN = none ∧ r.A = a0 :: rest ∧
        env.newClient = .ok () ∧ env.parseIP a0 = some ip ∧ env.getData ip = .ok resp ∧
        env.mapToResults resp = .ok (a :: more)
    · obtain ⟨a0, ip, rest, resp, a', more, hA, hL, hn, hp, hg, hm⟩ := hs
      rw [shapeResult_get_asn, asnFallback_success env r _ w a0 ip rest resp a' more
        hA hL hn hp hg hm, mapGet_mapSet_same] at hget
      have ha : a' = a := by
        injection hget with h1
        injection h1
      subst ha
      exact ⟨a0, ip, rest, resp, more, hA, hL, hn, hp, hg, hm⟩
    · rw [hfail hs] at hget
      cases hd : mapGet r.decoded "asn" with
      | none => simp [hd] at hget
      | some v => simp [hd] at hget
  · obtain ⟨a0, ip, rest, resp, more, hA, hL, hn, hp, hg, hm⟩ := hex
    rw [shapeResult_get_asn, asnFallback_success env r _ w a0 ip rest resp a more
      hA hL hn hp hg hm, mapGet_mapSet_same]
  · apply hfail
    rintro ⟨a0, ip, rest, resp, a, more, hA, _⟩
    exact h hA
  · simp [onResult, h]

/-- Witness of C5: a result with ASN data, a result with a resolvable
address, and a result whose address is not an IP literal. -/
theorem asnFallback_spec_witness :
    (shapeResult sampleEnv "full" asnResult sampleWorld).2 = sampleWorld ∧
    mapGet (shapeResult sampleEnv "full" okResult sampleWorld).1 "asn" =
      some (Val.asn { body := "8.8.8.8" }) ∧
    mapGet (shapeResult sampleEnv "full" asnResult sampleWorld).1 "asn" =
      (mapGet asnResult.decoded "asn").map Val.json ∧
    mapGet (shapeResult sampleEnv "lite" oddAddressResult sampleWorld).1 "asn" =
      (mapGet oddAddressResult.decoded "asn").map Val.json ∧
    onResult sampleEnv "lite" ([], sampleWorld) oddAddressResult =
      ([] ++ [(shapeResult sampleEnv "lite" oddAddressResult sampleWorld).1],
        (shapeResult sampleEnv "lite" oddAddressResult sampleWorld).2) :=
  ⟨(asnFallback_spec sampleEnv "full" asnResult sampleWorld []).1
      (Or.inl (by simp [asnResult])),
    ((asnFallback_spec sampleEnv "full" okResult sampleWorld []).2.1 { body := "8.8.8.8" }).mpr
      ⟨"8.8.8.8", "8.8.8.8", [], { body := "8.8.8.8" }, [{ body := "second" }],
        rfl, rfl, rfl, rfl, rfl, rfl⟩,
    (asnFallback_spec sampleEnv "full" asnResult sampleWorld []).2.2.1 (by simp [asnResult]),
    (asnFallback_spec sampleEnv "lite" oddAddressResult sampleWorld []).2.2.2.1
      (by
        rintro ⟨a0, ip, rest, resp, a, more, _, hL, _, hp, _⟩
        have h0 : a0 = "not-an-ip" := by
          simp only [oddAddressResult] at hL
          injection hL with h1 _
          exact h1.symm
        subst h0
        simp [sampleEnv] at hp),
    (asnFallback_spec sampleEnv "lite" oddAddressResult sampleWorld []).2.2.2.2 rfl⟩

/-! ## Orchestrator -/

theorem asnFallback_fst_indep (env : Env) (r : Result) (parsed : GoMap Val) (w w' : World) :
    (asnFallback env r parsed w).1 = (asnFallback env r parsed w').1 := by
  unfold asnFallback
  split
  · split
    · rfl
    · split
      · rfl
      · split
        · rfl
        · split <;> rfl
  · rfl

theorem shapeResult_fst_indep (env : Env) (mode : String) (r : Result) (w w' : World) :
    (shapeResult env mode r w).1 = (shapeResult env mode r w').1 := by
  simp only [shapeResult]
  rw [asnFallback_fst_indep env r _ w w']

theorem foldl_onResult_fst (env : Env) (mode : String) (w : World) (rs : List Result)
    (acc : List (GoMap Val)) (w0 : World) :
    (rs.foldl (onResult env mode) (acc, w0)).1 =
      acc ++ (rs.filter (fun r => r.Err.isNone)).map (fun r => (shapeResult env mode r w).1) := by
  induction rs generalizing acc w0 with
  | nil => simp
  | cons r rest ih =>
    cases hE : r.Err with
    | some e =>
      have hstep : onResult env mode (acc, w0) r = (acc, w0) := by simp [onResult, hE]
      rw [List.foldl_cons, hstep, ih]
      simp [List.filter_cons, hE]
    | none =>
      have hstep : onResult env mode (acc, w0) r =
          (acc ++ [(shapeResult env mode r w0).1], (shapeResult env mode r w0).2) := by
        simp [onResult, hE]
      rw [List.foldl_cons, hstep, ih, shapeResult_fst_indep env mode r w0 w]
      simp [List.filter_cons, hE]

/-- C4. When the mode switch yields a profile (the mode is `"lite"` or
`"full"`), the options validate, the engine is constructed and its run
returns, `runHttpx` returns the successful envelope whose mode is the requested
mode and whose results are exactly the shaped records of the emitted results
without error marker, in emission order: a result with an error marker is
dropped and never makes the call fail. -/
theorem runHttpx_envelope (env : Env) (targets : List String) (mode : String) (w : World)
    (opts opts' : Options) (hsel : selectOptions targets mode = .ok opts)
    (hval : env.validateOptions opts = .ok opts') (hnew : env.runnerNew opts' = .ok ())
    (hret : (env.runEnumeration opts').panics = false) :
    (mode = "lite" ∨ mode = "full") ∧
    (runHttpx env targets mode w).1 =
      Outcome.ret (.ok
        { isError := false,
          text := Payload.envelope mode
            (((env.runEnumeration opts').emitted.filter (fun r => r.Err.isNone)).map
              (fun r => (shapeResult env mode r w).1)) }) := by
  constructor
  · by_cases h1 : mode = "lite"
    · exact Or.inl h1
    · by_cases h2 : mode = "full"
      · exact Or.inr h2
      · simp [selectOptions, h1, h2] at hsel
  · simp only [runHttpx, hsel, hval, hnew, hret]
    simp [NewToolResultText, foldl_onResult_fst env mode w]

/-- Witness of C4: a full scan in which the engine emits a good result, a
failed one and a second good one. -/
theorem runHttpx_envelope_witness :
    (runHttpx sampleEnv ["example.com"] "full" sampleWorld).1 =
      Outcome.ret (.ok
        { isError := false,
          text := Payload.envelope "full"
            [(shapeResult sampleEnv "full" okResult sampleWorld).1,
              (shapeResult sampleEnv "full" asnResult sampleWorld).1] }) :=
  (runHttpx_envelope sampleEnv ["example.com"] "full" sampleWorld
    { baseOptions ["example.com"] with
      Asn := true, Probe := true, Favicon := true, Jarm := true, TLSGrab := true,
      TechDetect := true, CSPProbe := true, HTTP2Probe := true, FollowRedirects := true }
    { baseOptions ["example.com"] with
      Asn := true, Probe := true, Favicon := true, Jarm := true, TLSGrab := true,
      TechDetect := true, CSPProbe := true, HTTP2Probe := true, FollowRedirects := true }
    rfl rfl rfl rfl).2

/-! ## ASN lookup operation -/

theorem resolveInput_ip (env : Env) (input ip : String) (w : World)
    (h : env.parseIP input = some ip) : resolveInput env input w = (input, w) := by
  simp [resolveInput, h]

theorem resolveInput_resolved (env : Env) (input first : String) (rest : List String)
    (w : World) (h : env.parseIP input = none)
    (hr : env.resolveDomain input = .ok (first :: rest)) :
    resolveInput env input w = (first, w.record (Event.asnResolveDomain input)) := by
  simp [resolveInput, h, hr]

theorem resolveInput_unresolved (env : Env) (input : String) (w : World)
    (h : env.parseIP input = none)
    (hr : (∃ e, env.resolveDomain input = .error e) ∨ env.resolveDomain input = .ok []) :
    resolveInput env input w = (input, w.record (Event.asnResolveDomain input)) := by
  rcases hr with ⟨e, hr⟩ | hr <;> simp [resolveInput, h, hr]

theorem asnHandler_eq (env : Env) (req : CallToolRequest) (w w1 : World) (input q : String)
    (hin : mapGet req.Arguments "input" = some (JVal.str input))
    (hnb : TrimSpace input ≠ "") (hnew : env.newClient = .ok ())
    (hr : resolveInput env input (w.record Event.asnNewClient) = (q, w1)) :
    asnHandler env req w =
      match env.getData q with
      | .error err => (Outcome.ret (.error err), w1.record (Event.asnGetData q))
      | .ok resp =>
        match env.mapToResults resp with
        | .error err => (Outcome.ret (.error err), w1.record (Event.asnGetData q))
        | .ok mapped =>
          (Outcome.ret (.ok { isError := false, text := Payload.asnRecords mapped }),
            w1.record (Event.asnGetData q)) := by
  simp only [asnHandler, hin, asString, hnb, if_false, hnew, hr, NewToolResultText]

theorem asnHandler_log (env : Env) (req : CallToolRequest) (w w1 : World) (input q : String)
    (hin : mapGet req.Arguments "input" = some (JVal.str input))
    (hnb : TrimSpace input ≠ "") (hnew : env.newClient = .ok ())
    (hr : resolveInput env input (w.record Event.asnNewClient) = (q, w1)) :
    (asnHandler env req w).2.log = w1.log ++ [Event.asnGetData q] := by
  rw [asnHandler_eq env req w w1 input q hin hnb hnew hr]
  split
  · rfl
  · split <;> rfl

/-- C9, as the code has it. The input `"AS15169"` is not blank and not an IP
literal, and its domain resolution fails; yet `asnHandler` returns no error,
and the unresolved string is what it passed to the resolver's data query. -/
theorem unresolved_input_reaches_data_query :
    TrimSpace "AS15169" ≠ "" ∧ sampleEnv.parseIP "AS15169" = none ∧
    sampleEnv.resolveDomain "AS15169" = .error "no such host" ∧
    (asnHandler sampleEnv { Arguments := [("input", JVal.str "AS15169")] } sampleWorld).1 =
      Outcome.ret (.ok
        { isError := false,
          text := Payload.asnRecords [{ body := "AS15169" }, { body := "second" }] }) ∧
    (asnHandler sampleEnv { Arguments := [("input", JVal.str "AS15169")] } sampleWorld).2.log =
      [Event.asnNewClient, Event.asnResolveDomain "AS15169", Event.asnGetData "AS15169"] :=
  ⟨by decide, rfl, rfl, rfl, rfl⟩

/-- C9, amended. For an `asn_lookup` request whose `input` is a non-blank string
that is not an IP literal and whose domain resolution fails or yields no
address, `asnHandler` raises no resolution error: once the resolver client is
constructed it passes the input string unchanged to the resolver's data query
and returns what the query and the mapping give, their error or the mapped
records. -/
theorem asnHandler_unresolved (env : Env) (req : CallToolRequest) (w : World) (input : String)
    (hin : mapGet req.Arguments "input" = some (JVal.str input))
    (hnb : TrimSpace input ≠ "") (hip : env.parseIP input = none)
    (hres : (∃ e, env.resolveDomain input = .error e) ∨ env.resolveDomain input = .ok [])
    (hnew : env.newClient = .ok ()) :
    (asnHandler env req w).2.log =
      w.log ++ [Event.asnNewClient, Event.asnResolveDomain input, Event.asnGetData input] ∧
    (∀ e, env.getData input = .error e →
      (asnHandler env req w).1 = Outcome.ret (.error e)) ∧
    (∀ resp e, env.getData input = .ok resp → env.mapToResults resp = .error e →
      (asnHandler env req w).1 = Outcome.ret (.error e)) ∧
    (∀ resp mapped, env.getData input = .ok resp → env.mapToResults resp = .ok mapped →
      (asnHandler env req w).1 =
        Outcome.ret (.ok { isError := false, text := Payload.asnRecords mapped })) := by
  have hr := resolveInput_unresolved env input (w.record Event.asnNewClient) hip hres
  have heq := asnHandler_eq env req w _ input input hin hnb hnew hr
  refine ⟨?_, fun e hg => ?_, fun resp e hg hm => ?_, fun resp mapped hg hm => ?_⟩
  · rw [asnHandler_log env req w _ input input hin hnb hnew hr]
    simp [World.record]
  · rw [heq, hg]
  · rw [heq, hg]
    simp only [hm]
  · rw [heq, hg]
    simp only [hm]

/-- Witness of C9, amended: the input `"AS15169"`. -/
theorem asnHandler_unresolved_witness :
    (asnHandler sampleEnv { Arguments := [("input", JVal.str "AS15169")] } sampleWorld).2.log =
      sampleWorld.log ++
        [Event.asnNewClient, Event.asnResolveDomain "AS15169", Event.asnGetData "AS15169"] :=
  (asnHandler_unresolved sampleEnv { Arguments := [("input", JVal.str "AS15169")] }
    sampleWorld "AS15169" rfl (by decide) rfl (Or.inl ⟨"no such host", rfl⟩) rfl).1

/-- C10. For an `asn_lookup` request with a non-blank string `input`. If the
input is an IP literal, no domain resolution is performed and the only data
query is made with the input unchanged. If it is not an IP literal and domain
resolution returns a non-empty address list, the only data query is made with
the first resolved address. (The query is made once the resolver client is
constructed; when that fails the handler has only attempted the construction.)
In both cases, when the query and the mapping succeed, the payload is the
sequence of mapped records as the resolver returned it. -/
theorem asnHandler_routing (env : Env) (req : CallToolRequest) (w : World) (input : String)
    (hin : mapGet req.Arguments "input" = some (JVal.str input))
    (hnb : TrimSpace input ≠ "") :
    (∀ ip, env.parseIP input = some ip →
      (env.newClient = .ok () →
        (asnHandler env req w).2.log =
          w.log ++ [Event.asnNewClient, Event.asnGetData input] ∧
        ∀ resp mapped, env.getData input = .ok resp → env.mapToResults resp = .ok mapped →
          (asnHandler env req w).1 =
            Outcome.ret (.ok { isError := false, text := Payload.asnRecords mapped })) ∧
      (∀ e, env.newClient = .error e →
        (asnHandler env req w).2.log = w.log ++ [Event.asnNewClient])) ∧
    (env.parseIP input = none → ∀ first rest, env.resolveDomain input = .ok (first :: rest) →
      (env.newClient = .ok () →
        (asnHandler env req w).2.log =
          w.log ++ [Event.asnNewClient, Event.asnResolveDomain input, Event.asnGetData first] ∧
        ∀ resp mapped, env.getData first = .ok resp → env.mapToResults resp = .ok mapped →
          (asnHandler env req w).1 =
            Outcome.ret (.ok { isError := false, text := Payload.asnRecords mapped })) ∧
      (∀ e, env.newClient = .error e →
        (asnHandler env req w).2.log = w.log ++ [Event.asnNewClient])) := by
  have hfailed : ∀ e, env.newClient = .error e →
      (asnHandler env req w).2.log = w.log ++ [Event.asnNewClient] := by
    intro e he
    simp [asnHandler, hin, asString, hnb, he, World.record]
  have hrun : ∀ (q : String) (w1 : World), env.newClient = .ok () →
      resolveInput env input (w.record Event.asnNewClient) = (q, w1) →
      (asnHandler env req w).2.log = w1.log ++ [Event.asnGetData q] ∧
      ∀ resp mapped, env.getData q = .ok resp → env.mapToResults resp = .ok mapped →
        (asnHandler env req w).1 =
          Outcome.ret (.ok { isError := false, text := Payload.asnRecords mapped }) := by
    intro q w1 hnew hr
    refine ⟨asnHandler_log env req w w1 input q hin hnb hnew hr, fun resp mapped hg hm => ?_⟩
    rw [asnHandler_eq env req w w1 input q hin hnb hnew hr, hg]
    simp only [hm]
  refine ⟨fun ip hip => ⟨fun hnew => ?_, hfailed⟩,
    fun hip first rest hres => ⟨fun hnew => ?_, hfailed⟩⟩
  · have h := hrun input _ hnew (resolveInput_ip env input ip _ hip)
    simpa [World.record] using h
  · have h := hrun first _ hnew (resolveInput_resolved env input first rest _ hip hres)
    simpa [World.record] using h

/-- Witness of C10: the IP literal `8.8.8.8`, and the domain `example.com`
that resolves to two addresses. -/
theorem asnHandler_routing_witness :
    ((asnHandler sampleEnv { Arguments := [("input", JVal.str "8.8.8.8")] } sampleWorld).2.log =
        sampleWorld.log ++ [Event.asnNewClient, Event.asnGetData "8.8.8.8"] ∧
      (asnHandler sampleEnv { Arguments := [("input", JVal.str "8.8.8.8")] } sampleWorld).1 =
        Outcome.ret (.ok
          { isError := false,
            text := Payload.asnRecords [{ body := "8.8.8.8" }, { body := "second" }] })) ∧
    (asnHandler sampleEnv { Arguments := [("input", JVal.str "example.com")] }
        sampleWorld).2.log =
      sampleWorld.log ++
        [Event.asnNewClient, Event.asnResolveDomain "example.com",
          Event.asnGetData "8.8.8.8"] :=
  have h1 := ((asnHandler_routing sampleEnv { Arguments := [("input", JVal.str "8.8.8.8")] }
    sampleWorld "8.8.8.8" rfl (by decide)).1 "8.8.8.8" rfl).1 rfl
  have h2 := ((asnHandler_routing sampleEnv { Arguments := [("input", JVal.str "example.com")] }
    sampleWorld "example.com" rfl (by decide)).2 rfl "8.8.8.8" ["8.8.4.4"] rfl).1 rfl
  ⟨⟨h1.1, h1.2 { body := "8.8.8.8" } [{ body := "8.8.8.8" }, { body := "second" }] rfl rfl⟩,
    h2.1⟩

/-! ## Confirmation gate on a malformed `confirm` -/

/-- C11, as the code has it. A full-scan request with string `targets` and
`confirm` given as the string `"true"`: `fullHandler` returns no error but the
successful refusal result. -/
theorem malformed_confirm_is_refused :
    mapGet ([("targets", JVal.str "example.com"), ("confirm", JVal.str "true")] : GoMap JVal)
      "confirm" = some (JVal.str "true") ∧
    (¬ ∃ msg w', fullHandler sampleEnv
      { Arguments := [("targets", JVal.str "example.com"), ("confirm", JVal.str "true")] }
      sampleWorld = (Outcome.ret (.error msg), w')) ∧
    fullHandler sampleEnv
      { Arguments := [("targets", JVal.str "example.com"), ("confirm", JVal.str "true")] }
      sampleWorld =
      (Outcome.ret (.ok
        { isError := false,
          text := Payload.literal "\x7b\"error\": \"Full scan requires confirm=true\"\x7d" }),
       sampleWorld) := by
  have h : fullHandler sampleEnv
      { Arguments := [("targets", JVal.str "example.com"), ("confirm", JVal.str "true")] }
      sampleWorld =
      (Outcome.ret (.ok
        { isError := false,
          text := Payload.literal "\x7b\"error\": \"Full scan requires confirm=true\"\x7d" }),
       sampleWorld) := rfl
  refine ⟨rfl, ?_, h⟩
  rintro ⟨msg, w', he⟩
  rw [h] at he
  injection he with h1 _
  injection h1 with h2
  cases h2

/-- C11, amended. For a full-scan request whose `targets` is a string and whose
`confirm` is present but not a boolean, `fullHandler` returns the successful
refusal result (not an error), and the world is left as it was: no engine
call is made. -/
theorem fullHandler_malformed_confirm (env : Env) (req : CallToolRequest) (w : World)
    (raw : String) (v : JVal)
    (ht : mapGet req.Arguments "targets" = some (JVal.str raw))
    (hc : mapGet req.Arguments "confirm" = some v) (hv : ∀ b, v ≠ JVal.bool b) :
    fullHandler env req w =
      (Outcome.ret (.ok
        { isError := false,
          text := Payload.literal "\x7b\"error\": \"Full scan requires confirm=true\"\x7d" }),
       w) := by
  have hb : asBool (some v) = none := by
    cases v with
    | bool b => exact absurd rfl (hv b)
    | _ => rfl
  simp [fullHandler, ht, hc, hb, asString, NewToolResultText, refusalText]

/-- Witness of C11, amended: `confirm` given as the number `1`. -/
theorem fullHandler_malformed_confirm_witness :
    fullHandler sampleEnv
      { Arguments := [("targets", JVal.str "example.com"), ("confirm", JVal.num "1")] }
      sampleWorld =
      (Outcome.ret (.ok
        { isError := false,
          text := Payload.literal "\x7b\"error\": \"Full scan requires confirm=true\"\x7d" }),
       sampleWorld) :=
  fullHandler_malformed_confirm sampleEnv
    { Arguments := [("targets", JVal.str "example.com"), ("confirm", JVal.num "1")] }
    sampleWorld "example.com" (JVal.num "1") rfl rfl (fun b hb => by cases hb)

/-! ## Stream redirection -/

theorem asnFallback_world (env : Env) (r : Result) (parsed : GoMap Val) (w : World) :
    ∃ evs : List Event,
      (asnFallback env r parsed w).2 = { w with log := w.log ++ evs } ∧
      ∀ e ∈ evs, e = Event.asnNewClient ∨ ∃ q, e = Event.asnGetData q := by
  have h0 : ∃ evs : List Event, w = { w with log := w.log ++ evs } ∧
      ∀ e ∈ evs, e = Event.asnNewClient ∨ ∃ q, e = Event.asnGetData q :=
    ⟨[], by simp, by simp⟩
  have h1 : ∃ evs : List Event,
      w.record Event.asnNewClient = { w with log := w.log ++ evs } ∧
      ∀ e ∈ evs, e = Event.asnNewClient ∨ ∃ q, e = Event.asnGetData q :=
    ⟨[Event.asnNewClient], rfl, by simp⟩
  have h2 : ∀ ip : String, ∃ evs : List Event,
      (w.record Event.asnNewClient).record (Event.asnGetData ip) =
        { w with log := w.log ++ evs } ∧
      ∀ e ∈ evs, e = Event.asnNewClient ∨ ∃ q, e = Event.asnGetData q :=
    fun ip => ⟨[Event.asnNewClient, Event.asnGetData ip], by simp [World.record], by simp⟩
  unfold asnFallback
  split
  · split
    · exact h1
    · split
      · exact h1
      · split
        · exact h2 _
        · split
          · exact h2 _
          · exact h2 _
  · exact h0

theorem onResult_world (env : Env) (mode : String) (st : List (GoMap Val) × World)
    (r : Result) :
    ∃ evs : List Event,
      (onResult env mode st r).2 = { st.2 with log := st.2.log ++ evs } ∧
      ∀ e ∈ evs, e = Event.asnNewClient ∨ ∃ q, e = Event.asnGetData q := by
  cases hE : r.Err with
  | some e =>
    refine ⟨[], ?_, by simp⟩
    simp [onResult, hE]
  | none =>
    obtain ⟨evs, h1, h2⟩ := asnFallback_world env r
      (r.decoded.map (fun kv => (kv.1, Val.json kv.2))) st.2
    refine ⟨evs, ?_, h2⟩
    have hw : (onResult env mode st r).2 = (shapeResult env mode r st.2).2 := by
      simp [onResult, hE]
    rw [hw, shapeResult_world, h1]

theorem foldl_onResult_world (env : Env) (mode : String) (rs : List Result)
    (st : List (GoMap Val) × World) :
    ∃ evs : List Event,
      (rs.foldl (onResult env mode) st).2 = { st.2 with log := st.2.log ++ evs } ∧
      ∀ e ∈ evs, e = Event.asnNewClient ∨ ∃ q, e = Event.asnGetData q := by
  induction rs generalizing st with
  | nil => exact ⟨[], by simp, by simp⟩
  | cons r rest ih =>
    obtain ⟨evs1, h1, h1'⟩ := onResult_world env mode st r
    obtain ⟨evs2, h2, h2'⟩ := ih (onResult env mode st r)
    refine ⟨evs1 ++ evs2, ?_, ?_⟩
    · rw [List.foldl_cons, h2, h1]
      simp
    · intro e he
      rcases List.mem_append.mp he with h | h
      · exact h1' e h
      · exact h2' e h

/-- C12, as the code has it. When opening the discard device for writing
fails (the error is ignored by the source), the engine runs with the standard
output bound to a nil file, not to the discard device. -/
theorem stdout_not_discard_when_open_fails :
    noDevNullEnv.openDevNullOut = false ∧
    (runHttpx noDevNullEnv ["example.com"] "lite" sampleWorld).2.log =
      [Event.validateOptions, Event.runnerNew (baseOptions ["example.com"]),
        Event.runEnumeration Stream.nilFile Stream.devNull,
        Event.asnNewClient, Event.asnGetData "8.8.8.8", Event.runnerClose] ∧
    Event.runEnumeration Stream.devNull Stream.devNull ∉
      (runHttpx noDevNullEnv ["example.com"] "lite" sampleWorld).2.log := by
  have h : (runHttpx noDevNullEnv ["example.com"] "lite" sampleWorld).2.log =
      [Event.validateOptions, Event.runnerNew (baseOptions ["example.com"]),
        Event.runEnumeration Stream.nilFile Stream.devNull,
        Event.asnNewClient, Event.asnGetData "8.8.8.8", Event.runnerClose] := rfl
  refine ⟨rfl, h, ?_⟩
  rw [h]
  simp

/-- C12, amended. For every call of `runHttpx`, on every exit path (invalid
mode, configuration error, construction error, after the engine run, also when
the run panics) the standard output and the standard input are the streams
they were before the call. When the engine runs and both openings of the
discard device succeeded, the run starts with both streams bound to the
discard device, the callback never rebinds them, and the log of the call is
validate, construct, run, the resolver calls of the callbacks, close. -/
theorem runHttpx_streams (env : Env) (targets : List String) (mode : String) (w : World) :
    ((runHttpx env targets mode w).2.stdout = w.stdout ∧
      (runHttpx env targets mode w).2.stdin = w.stdin) ∧
    (∀ opts opts' : Options, selectOptions targets mode = .ok opts →
      env.validateOptions opts = .ok opts' → env.runnerNew opts' = .ok () →
      env.openDevNullOut = true → env.openDevNullIn = true →
      ∃ evs : List Event,
        (runHttpx env targets mode w).2.log =
          w.log ++ [Event.validateOptions, Event.runnerNew opts',
            Event.runEnumeration Stream.devNull Stream.devNull] ++ evs ++
            [Event.runnerClose] ∧
        ∀ e ∈ evs, e = Event.asnNewClient ∨ ∃ q, e = Event.asnGetData q) ∧
    (∀ (st : List (GoMap Val) × World) (r : Result),
      (onResult env mode st r).2.stdout = st.2.stdout ∧
      (onResult env mode st r).2.stdin = st.2.stdin) := by
  refine ⟨?_, ?_, ?_⟩
  · unfold runHttpx
    split
    · exact ⟨rfl, rfl⟩
    · split
      · exact ⟨rfl, rfl⟩
      · split
        · exact ⟨rfl, rfl⟩
        · dsimp only
          split <;> exact ⟨rfl, rfl⟩
  · intro opts opts' hsel hval hnew hout hin
    obtain ⟨evs, h1, h2⟩ := foldl_onResult_world env mode (env.runEnumeration opts').emitted
      ([], { stdout := Stream.devNull, stdin := Stream.devNull,
             log := w.log ++ [Event.validateOptions, Event.runnerNew opts',
               Event.runEnumeration Stream.devNull Stream.devNull] })
    refine ⟨evs, ?_, h2⟩
    have hw : (runHttpx env targets mode w).2.log =
        ((env.runEnumeration opts').emitted.foldl (onResult env mode)
          ([], { stdout := Stream.devNull, stdin := Stream.devNull,
                 log := w.log ++ [Event.validateOptions, Event.runnerNew opts',
                   Event.runEnumeration Stream.devNull Stream.devNull] })).2.log ++
          [Event.runnerClose] := by
      simp only [runHttpx, hsel, hval, hnew, hout, hin, openDevNull, if_true, World.record,
        List.append_assoc, List.singleton_append]
      split <;> rfl
    rw [hw, h1]
  · intro st r
    obtain ⟨evs, h1, _⟩ := onResult_world env mode st r
    rw [h1]
    exact ⟨rfl, rfl⟩

/-- Witness of C12, amended: a full scan whose engine run returns, and a lite
scan whose engine run panics. -/
theorem runHttpx_streams_witness :
    ((runHttpx sampleEnv ["example.com"] "full" sampleWorld).2.stdout = sampleWorld.stdout ∧
      (runHttpx sampleEnv ["example.com"] "full" sampleWorld).2.stdin = sampleWorld.stdin) ∧
    (∃ evs : List Event,
      (runHttpx sampleEnv ["example.com"] "full" sampleWorld).2.log =
        sampleWorld.log ++ [Event.validateOptions,
          Event.runnerNew
            { baseOptions ["example.com"] with
              Asn := true, Probe := true, Favicon := true, Jarm := true, TLSGrab := true,
              TechDetect := true, CSPProbe := true, HTTP2Probe := true,
              FollowRedirects := true },
          Event.runEnumeration Stream.devNull Stream.devNull] ++ evs ++
          [Event.runnerClose] ∧
      ∀ e ∈ evs, e = Event.asnNewClient ∨ ∃ q, e = Event.asnGetData q) ∧
    (runHttpx panickingEnv ["example.com"] "lite" sampleWorld).1 = Outcome.panicked ∧
    ((runHttpx panickingEnv ["example.com"] "lite" sampleWorld).2.stdout = sampleWorld.stdout ∧
      (runHttpx panickingEnv ["example.com"] "lite" sampleWorld).2.stdin = sampleWorld.stdin) :=
  ⟨(runHttpx_streams sampleEnv ["example.com"] "full" sampleWorld).1,
    (runHttpx_streams sampleEnv ["example.com"] "full" sampleWorld).2.1
      { baseOptions ["example.com"] with
        Asn := true, Probe := true, Favicon := true, Jarm := true, TLSGrab := true,
        TechDetect := true, CSPProbe := true, HTTP2Probe := true, FollowRedirects := true }
      { baseOptions ["example.com"] with
        Asn := true, Probe := true, Favicon := true, Jarm := true, TLSGrab := true,
        TechDetect := true, CSPProbe := true, HTTP2Probe := true, FollowRedirects := true }
      rfl rfl rfl rfl rfl,
    rfl,
    (runHttpx_streams panickingEnv ["example.com"] "lite" sampleWorld).1⟩

end McpRecon
